import Mathlib

/-!
Shallow embedding of the calendar-integrity and authorization core of the
school-records platform: the business-rule validators of
src/lib/business-rules.ts, the route handlers of
src/app/api/academic-years/route.ts and src/app/api/terms/route.ts, and the
role-based access-control layer of src/lib/security.ts.

Dates are modelled as integers (timestamps), ids as naturals, each Prisma
transaction as an atomic function from store to store (a thrown
BusinessRuleError aborts the transaction, leaving the store unchanged).
-/

namespace SchoolCore

/-- AcademicYear record: {id, schoolId, name, startDate, endDate, isCurrent, isLocked}. -/
structure AcademicYear where
  id : Nat
  schoolId : Nat
  name : String
  startDate : Int
  endDate : Int
  isCurrent : Bool
  isLocked : Bool
deriving Repr, DecidableEq

/-- Term record: {id, academicYearId, name, startDate, endDate, isLocked}. -/
structure Term where
  id : Nat
  academicYearId : Nat
  name : String
  startDate : Int
  endDate : Int
  isLocked : Bool
deriving Repr, DecidableEq

/-- The persisted state relevant to the calendar core: the AcademicYear and
Term tables. -/
structure Store where
  years : List AcademicYear
  terms : List Term
deriving Repr, DecidableEq

/-- BusinessRuleError, split by the message the code throws.  All of these are
instances of the single BusinessRuleError class and are mapped uniformly by
every route handler. -/
inductive RuleError where
  | invalidRange (context : String)
  | overlap (name : String)
  | outOfBounds
  | locked (name : String)
  | notFound (msg : String)
deriving Repr, DecidableEq

/-- tx.academicYear.findUnique where id. -/
def findYear (s : Store) (id : Nat) : Option AcademicYear :=
  s.years.find? (fun y => y.id == id)

/-- tx.term.findUnique where id. -/
def findTerm (s : Store) (id : Nat) : Option Term :=
  s.terms.find? (fun t => t.id == id)

/-- validateDateRange: throws InvalidRange unless startDate < endDate
(the code throws when startDate >= endDate). -/
def validateDateRange (startDate endDate : Int) (context : String) :
    Except RuleError Unit :=
  if startDate ≥ endDate then .error (.invalidRange context) else .ok ()

/-- assertAcademicYearNotLocked: NotFound if the year is absent, Locked if
its isLocked flag is set. -/
def assertAcademicYearNotLocked (s : Store) (academicYearId : Nat) :
    Except RuleError Unit :=
  match findYear s academicYearId with
  | none => .error (.notFound "Academic year not found")
  | some y => if y.isLocked then .error (.locked y.name) else .ok ()

/-- assertTermNotLocked: NotFound if the term is absent, Locked if its
isLocked flag is set. -/
def assertTermNotLocked (s : Store) (termId : Nat) : Except RuleError Unit :=
  match findTerm s termId with
  | none => .error (.notFound "Term not found")
  | some t => if t.isLocked then .error (.locked t.name) else .ok ()

/-- The three-branch overlap condition of the Prisma findFirst query in
validateAcademicYear: sibling contains candidate start, or sibling contains
candidate end, or candidate contains sibling. -/
def yearOverlaps (s e : Int) (sib : AcademicYear) : Bool :=
  (decide (sib.startDate ≤ s) && decide (s ≤ sib.endDate)) ||
  (decide (sib.startDate ≤ e) && decide (e ≤ sib.endDate)) ||
  (decide (s ≤ sib.startDate) && decide (sib.endDate ≤ e))

/-- The same three-branch overlap condition for the Term findFirst query in
validateTerm. -/
def termOverlaps (s e : Int) (sib : Term) : Bool :=
  (decide (sib.startDate ≤ s) && decide (s ≤ sib.endDate)) ||
  (decide (sib.startDate ≤ e) && decide (e ≤ sib.endDate)) ||
  (decide (s ≤ sib.startDate) && decide (sib.endDate ≤ e))

/-- The sibling set consulted by validateAcademicYear: same school, excluding
the entity being updated (when data.id is present). -/
def yearSiblings (s : Store) (schoolId : Nat) (excludeId : Option Nat) :
    List AcademicYear :=
  s.years.filter (fun y =>
    y.schoolId == schoolId &&
    (match excludeId with
     | some i => y.id != i
     | none => true))

/-- The sibling set consulted by validateTerm: same parent academic year,
excluding the entity being updated. -/
def termSiblings (s : Store) (academicYearId : Nat) (excludeId : Option Nat) :
    List Term :=
  s.terms.filter (fun t =>
    t.academicYearId == academicYearId &&
    (match excludeId with
     | some i => t.id != i
     | none => true))

/-- Input of validateAcademicYear (the data argument). -/
structure YearData where
  schoolId : Nat
  id : Option Nat
  name : String
  startDate : Int
  endDate : Int
  isCurrent : Bool
deriving Repr, DecidableEq

/-- validateAcademicYear: date-range check, then the overlapping-year
findFirst, throwing Overlap with the name of the first overlapping sibling. -/
def validateAcademicYear (s : Store) (data : YearData) : Except RuleError Unit :=
  match validateDateRange data.startDate data.endDate "Academic year" with
  | .error e => .error e
  | .ok _ =>
    match (yearSiblings s data.schoolId data.id).find?
        (yearOverlaps data.startDate data.endDate) with
    | some y => .error (.overlap y.name)
    | none => .ok ()

/-- Input of validateTerm (the data argument). -/
structure TermData where
  id : Option Nat
  name : String
  startDate : Int
  endDate : Int
  academicYearId : Nat
deriving Repr, DecidableEq

/-- validateTerm: date-range check, parent lookup (NotFound when absent),
containment check against the parent year (OutOfBounds), then the
overlapping-term findFirst. -/
def validateTerm (s : Store) (data : TermData) : Except RuleError Unit :=
  match validateDateRange data.startDate data.endDate "Term" with
  | .error e => .error e
  | .ok _ =>
    match findYear s data.academicYearId with
    | none => .error (.notFound "Parent academic year not found")
    | some ay =>
      if data.startDate < ay.startDate ∨ data.endDate > ay.endDate then
        .error .outOfBounds
      else
        match (termSiblings s data.academicYearId data.id).find?
            (termOverlaps data.startDate data.endDate) with
        | some t => .error (.overlap t.name)
        | none => .ok ()

/-- The per-row effect of the updateMany in
validateAndEnforceSingleCurrentAcademicYear: rows of the same school that are
current and are not the given year get isCurrent := false. -/
def unsetOther (schoolId academicYearId : Nat) (y : AcademicYear) : AcademicYear :=
  if y.schoolId == schoolId && y.isCurrent && y.id != academicYearId then
    { y with isCurrent := false }
  else y

/-- validateAndEnforceSingleCurrentAcademicYear: returns the store unchanged
when isCurrent is false, otherwise unsets isCurrent on every other current
year of the school. -/
def validateAndEnforceSingleCurrentAcademicYear
    (s : Store) (schoolId academicYearId : Nat) (isCurrent : Bool) : Store :=
  if !isCurrent then s
  else { s with years := s.years.map (unsetOther schoolId academicYearId) }

/-! ### Route handlers (src/app/api/academic-years/route.ts,
src/app/api/terms/route.ts), each Prisma transaction modelled as one atomic
Except-valued function. -/

/-- Body of POST /api/academic-years after the required-field check.
Optional fields model absent JSON fields (data.isCurrent || false). -/
structure YearCreate where
  schoolId : Nat
  name : String
  startDate : Int
  endDate : Int
  isCurrent : Option Bool
  isLocked : Option Bool
deriving Repr, DecidableEq

/-- The row tx.academicYear.create inserts; freshId is the id the database
assigns. -/
def newYearRow (freshId : Nat) (d : YearCreate) : AcademicYear :=
  { id := freshId, schoolId := d.schoolId, name := d.name,
    startDate := d.startDate, endDate := d.endDate,
    isCurrent := d.isCurrent.getD false, isLocked := d.isLocked.getD false }

/-- POST /api/academic-years transaction: validateAcademicYear, create the
row, then (if data.isCurrent) enforce the single-current rule. -/
def postAcademicYear (s : Store) (freshId : Nat) (d : YearCreate) :
    Except RuleError Store :=
  match validateAcademicYear s
      { schoolId := d.schoolId, id := none, name := d.name,
        startDate := d.startDate, endDate := d.endDate,
        isCurrent := d.isCurrent.getD false } with
  | .error e => .error e
  | .ok _ =>
    .ok (if d.isCurrent.getD false then
          validateAndEnforceSingleCurrentAcademicYear
            { s with years := s.years ++ [newYearRow freshId d] }
            d.schoolId freshId true
        else { s with years := s.years ++ [newYearRow freshId d] })

/-- Body of PUT /api/academic-years after the id check: every other field is
optional (absent fields leave the row unchanged in the Prisma update). -/
structure YearUpdate where
  id : Nat
  name : Option String
  startDate : Option Int
  endDate : Option Int
  isCurrent : Option Bool
  isLocked : Option Bool
deriving Repr, DecidableEq

/-- The Prisma update data of PUT /api/academic-years applied to one row:
absent payload fields leave the stored field unchanged. -/
def applyYearUpdate (d : YearUpdate) (y : AcademicYear) : AcademicYear :=
  { y with
    name := d.name.getD y.name
    startDate := d.startDate.getD y.startDate
    endDate := d.endDate.getD y.endDate
    isCurrent := d.isCurrent.getD y.isCurrent
    isLocked := d.isLocked.getD y.isLocked }

/-- tx.academicYear.update where id: the row with the payload id is replaced
by its updated version. -/
def updateYearRow (d : YearUpdate) (y : AcademicYear) : AcademicYear :=
  if y.id == d.id then applyYearUpdate d y else y

/-- PUT /api/academic-years transaction: lock check, existence check,
validateAcademicYear when startDate or endDate is in the payload, update,
then the single-current enforcement when data.isCurrent is present and
differs from the stored value. -/
def putAcademicYear (s : Store) (d : YearUpdate) : Except RuleError Store :=
  match assertAcademicYearNotLocked s d.id with
  | .error e => .error e
  | .ok _ =>
    match findYear s d.id with
    | none => .error (.notFound "Academic year not found")
    | some existing =>
      match (if d.startDate.isSome || d.endDate.isSome then
              validateAcademicYear s
                { schoolId := existing.schoolId, id := some d.id,
                  name := d.name.getD existing.name,
                  startDate := d.startDate.getD existing.startDate,
                  endDate := d.endDate.getD existing.endDate,
                  isCurrent := d.isCurrent.getD existing.isCurrent }
            else .ok ()) with
      | .error e => .error e
      | .ok _ =>
        .ok (if (match d.isCurrent with
                 | some b => b != existing.isCurrent
                 | none => false) then
              validateAndEnforceSingleCurrentAcademicYear
                { s with years := s.years.map (updateYearRow d) }
                existing.schoolId d.id (d.isCurrent.getD false)
            else { s with years := s.years.map (updateYearRow d) })

/-- DELETE /api/academic-years transaction: lock check, then delete the year;
the route comment records that child terms cascade delete. -/
def deleteAcademicYear (s : Store) (id : Nat) : Except RuleError Store :=
  match assertAcademicYearNotLocked s id with
  | .error e => .error e
  | .ok _ =>
    .ok { years := s.years.filter (fun y => y.id != id),
          terms := s.terms.filter (fun t => t.academicYearId != id) }

/-- Body of POST /api/terms after the required-field check. -/
structure TermCreate where
  academicYearId : Nat
  name : String
  startDate : Int
  endDate : Int
  isLocked : Option Bool
deriving Repr, DecidableEq

/-- The row tx.term.create inserts. -/
def newTermRow (freshId : Nat) (d : TermCreate) : Term :=
  { id := freshId, academicYearId := d.academicYearId, name := d.name,
    startDate := d.startDate, endDate := d.endDate,
    isLocked := d.isLocked.getD false }

/-- POST /api/terms transaction: parent lock check, validateTerm, create. -/
def postTerm (s : Store) (freshId : Nat) (d : TermCreate) :
    Except RuleError Store :=
  match assertAcademicYearNotLocked s d.academicYearId with
  | .error e => .error e
  | .ok _ =>
    match validateTerm s
        { id := none, name := d.name, startDate := d.startDate,
          endDate := d.endDate, academicYearId := d.academicYearId } with
    | .error e => .error e
    | .ok _ => .ok { s with terms := s.terms ++ [newTermRow freshId d] }

/-- Body of PUT /api/terms after the id check. -/
structure TermUpdate where
  id : Nat
  name : Option String
  startDate : Option Int
  endDate : Option Int
  isLocked : Option Bool
deriving Repr, DecidableEq

/-- The Prisma update data of PUT /api/terms applied to one row. -/
def applyTermUpdate (d : TermUpdate) (t : Term) : Term :=
  { t with
    name := d.name.getD t.name
    startDate := d.startDate.getD t.startDate
    endDate := d.endDate.getD t.endDate
    isLocked := d.isLocked.getD t.isLocked }

/-- tx.term.update where id. -/
def updateTermRow (d : TermUpdate) (t : Term) : Term :=
  if t.id == d.id then applyTermUpdate d t else t

/-- PUT /api/terms transaction: term lock check, existence check, parent
lock check, validateTerm when startDate or endDate is in the payload, then
the update. -/
def putTerm (s : Store) (d : TermUpdate) : Except RuleError Store :=
  match assertTermNotLocked s d.id with
  | .error e => .error e
  | .ok _ =>
    match findTerm s d.id with
    | none => .error (.notFound "Term not found")
    | some existing =>
      match assertAcademicYearNotLocked s existing.academicYearId with
      | .error e => .error e
      | .ok _ =>
        match (if d.startDate.isSome || d.endDate.isSome then
                validateTerm s
                  { id := some d.id,
                    name := d.name.getD existing.name,
                    startDate := d.startDate.getD existing.startDate,
                    endDate := d.endDate.getD existing.endDate,
                    academicYearId := existing.academicYearId }
              else .ok ()) with
        | .error e => .error e
        | .ok _ =>
          .ok { s with terms := s.terms.map (updateTermRow d) }

/-- DELETE /api/terms transaction: term lock check, existence check, parent
lock check, delete. -/
def deleteTerm (s : Store) (id : Nat) : Except RuleError Store :=
  match assertTermNotLocked s id with
  | .error e => .error e
  | .ok _ =>
    match findTerm s id with
    | none => .error (.notFound "Term not found")
    | some existing =>
      match assertAcademicYearNotLocked s existing.academicYearId with
      | .error e => .error e
      | .ok _ =>
        .ok { s with terms := s.terms.filter (fun t => t.id != id) }

/-! ### The operation alphabet of the core, and the state transition each
request induces (a failed transaction rolls back, leaving the store
unchanged). -/

/-- One mutating API request to the calendar core. -/
inductive Op where
  | createYear (freshId : Nat) (d : YearCreate)
  | updateYear (d : YearUpdate)
  | deleteYear (id : Nat)
  | createTerm (freshId : Nat) (d : TermCreate)
  | updateTerm (d : TermUpdate)
  | deleteTerm (id : Nat)
deriving Repr, DecidableEq

/-- The transaction a request runs. -/
def runOp (s : Store) : Op → Except RuleError Store
  | .createYear freshId d => postAcademicYear s freshId d
  | .updateYear d => putAcademicYear s d
  | .deleteYear id => deleteAcademicYear s id
  | .createTerm freshId d => postTerm s freshId d
  | .updateTerm d => putTerm s d
  | .deleteTerm id => deleteTerm s id

/-- The store after a request: on a BusinessRuleError the transaction rolls
back and the store is unchanged. -/
def applyOp (s : Store) (op : Op) : Store :=
  match runOp s op with
  | .ok s1 => s1
  | .error _ => s

/-- The ids of the stored academic years. -/
def yearIds (s : Store) : List Nat := s.years.map AcademicYear.id

/-- A database-assigned id is fresh: create operations never reuse a stored
year id. -/
def FreshOp (s : Store) : Op → Prop
  | .createYear freshId _ => freshId ∉ yearIds s
  | _ => True

/-- Stores reachable from s by finite sequences of API requests with
database-assigned fresh ids. -/
inductive Reach : Store → Store → Prop where
  | refl (s : Store) : Reach s s
  | step (s1 s2 : Store) (op : Op) :
      Reach s1 s2 → FreshOp s2 op → Reach s1 (applyOp s2 op)

/-! ### The single-current invariant. -/

/-- Stored academic-year ids are pairwise distinct (database primary key). -/
def NodupIds (l : List AcademicYear) : Prop :=
  (l.map AcademicYear.id).Nodup

/-- At most one current year per school, stated pairwise: two current years
of the same school are the same row. -/
def AtMostOneCurrent (l : List AcademicYear) : Prop :=
  ∀ y1 ∈ l, ∀ y2 ∈ l, y1.isCurrent = true → y2.isCurrent = true →
    y1.schoolId = y2.schoolId → y1.id = y2.id

/-- The calendar invariant: distinct ids and at most one current year per
school. -/
def CalendarInv (s : Store) : Prop :=
  NodupIds s.years ∧ AtMostOneCurrent s.years

/-- Number of stored academic years of a school flagged current. -/
def currentCount (s : Store) (schoolId : Nat) : Nat :=
  s.years.countP (fun y => y.schoolId == schoolId && y.isCurrent)

lemma eq_of_mem_of_id_eq {l : List AcademicYear} (hn : NodupIds l)
    {y1 y2 : AcademicYear} (h1 : y1 ∈ l) (h2 : y2 ∈ l) (h : y1.id = y2.id) :
    y1 = y2 := by
  unfold NodupIds at hn
  exact List.inj_on_of_nodup_map hn h1 h2 h

lemma unsetOther_id (sch i : Nat) (y : AcademicYear) :
    (unsetOther sch i y).id = y.id := by
  unfold unsetOther; split <;> rfl

lemma unsetOther_schoolId (sch i : Nat) (y : AcademicYear) :
    (unsetOther sch i y).schoolId = y.schoolId := by
  unfold unsetOther; split <;> rfl

lemma unsetOther_isLocked (sch i : Nat) (y : AcademicYear) :
    (unsetOther sch i y).isLocked = y.isLocked := by
  unfold unsetOther; split <;> rfl

lemma unsetOther_current {sch i : Nat} {y : AcademicYear}
    (h : (unsetOther sch i y).isCurrent = true) :
    y.isCurrent = true ∧ (y.schoolId = sch → y.id = i) := by
  unfold unsetOther at h
  by_cases hc : (y.schoolId == sch && y.isCurrent && y.id != i) = true
  · rw [if_pos hc] at h
    simp at h
  · rw [if_neg hc] at h
    refine ⟨h, fun hs => ?_⟩
    by_contra hne
    exact hc (by simp [hs, h, hne])

lemma applyYearUpdate_id (d : YearUpdate) (y : AcademicYear) :
    (applyYearUpdate d y).id = y.id := rfl

lemma applyYearUpdate_schoolId (d : YearUpdate) (y : AcademicYear) :
    (applyYearUpdate d y).schoolId = y.schoolId := rfl

lemma updateYearRow_id (d : YearUpdate) (y : AcademicYear) :
    (updateYearRow d y).id = y.id := by
  unfold updateYearRow; split <;> rfl

lemma updateYearRow_schoolId (d : YearUpdate) (y : AcademicYear) :
    (updateYearRow d y).schoolId = y.schoolId := by
  unfold updateYearRow; split <;> rfl

lemma updateYearRow_other {d : YearUpdate} {y : AcademicYear}
    (h : y.id ≠ d.id) : updateYearRow d y = y := by
  unfold updateYearRow
  rw [if_neg (by simpa using h)]

lemma nodupIds_map {l : List AcademicYear} {f : AcademicYear → AcademicYear}
    (hf : ∀ y, (f y).id = y.id) (hn : NodupIds l) : NodupIds (l.map f) := by
  unfold NodupIds at hn ⊢
  rw [List.map_map]
  have he : l.map (AcademicYear.id ∘ f) = l.map AcademicYear.id :=
    List.map_congr_left (fun a _ => hf a)
  rw [he]; exact hn

lemma atMostOne_map_mono {l : List AcademicYear}
    {f : AcademicYear → AcademicYear}
    (hid : ∀ y, (f y).id = y.id) (hsch : ∀ y, (f y).schoolId = y.schoolId)
    (hcur : ∀ y ∈ l, (f y).isCurrent = true → y.isCurrent = true)
    (h : AtMostOneCurrent l) : AtMostOneCurrent (l.map f) := by
  intro z1 hz1 z2 hz2 hc1 hc2 hss
  rcases List.mem_map.mp hz1 with ⟨y1, hy1, rfl⟩
  rcases List.mem_map.mp hz2 with ⟨y2, hy2, rfl⟩
  rw [hid y1, hid y2]
  exact h y1 hy1 y2 hy2 (hcur y1 hy1 hc1) (hcur y2 hy2 hc2)
    (by rw [← hsch y1, ← hsch y2]; exact hss)

lemma inv_map_enforce {l : List AcademicYear}
    {g : AcademicYear → AcademicYear} {c t : Nat}
    (hid : ∀ y, (g y).id = y.id) (hsch : ∀ y, (g y).schoolId = y.schoolId)
    (hcur : ∀ y ∈ l, (g y).isCurrent = true →
      y.id = t ∨ (y.isCurrent = true ∧ y.schoolId ≠ c))
    (hschtid : ∀ y ∈ l, y.id = t → y.schoolId = c)
    (hn : NodupIds l) (ha : AtMostOneCurrent l) :
    NodupIds (l.map g) ∧ AtMostOneCurrent (l.map g) := by
  refine ⟨nodupIds_map hid hn, ?_⟩
  intro z1 hz1 z2 hz2 hc1 hc2 hss
  rcases List.mem_map.mp hz1 with ⟨y1, hy1, rfl⟩
  rcases List.mem_map.mp hz2 with ⟨y2, hy2, rfl⟩
  rw [hid y1, hid y2]
  have hss2 : y1.schoolId = y2.schoolId := by
    rw [← hsch y1, ← hsch y2]; exact hss
  rcases hcur y1 hy1 hc1 with h1 | ⟨hc1o, hs1⟩
  · rcases hcur y2 hy2 hc2 with h2 | ⟨hc2o, hs2⟩
    · rw [h1, h2]
    · exact absurd (hss2.symm.trans (hschtid y1 hy1 h1)) hs2
  · rcases hcur y2 hy2 hc2 with h2 | ⟨hc2o, hs2⟩
    · exact absurd (hss2.trans (hschtid y2 hy2 h2)) hs1
    · exact ha y1 hy1 y2 hy2 hc1o hc2o hss2

lemma inv_append_enforce {l : List AcademicYear} {c : AcademicYear}
    (hfresh : c.id ∉ l.map AcademicYear.id)
    (hn : NodupIds l) (ha : AtMostOneCurrent l) :
    NodupIds ((l ++ [c]).map (unsetOther c.schoolId c.id)) ∧
    AtMostOneCurrent ((l ++ [c]).map (unsetOther c.schoolId c.id)) := by
  have hnapp : NodupIds (l ++ [c]) := by
    unfold NodupIds at hn ⊢
    rw [List.map_append, List.nodup_append]
    exact ⟨hn, List.nodup_singleton _,
      by simpa [List.disjoint_singleton] using hfresh⟩
  refine ⟨nodupIds_map (unsetOther_id c.schoolId c.id) hnapp, ?_⟩
  have hself : unsetOther c.schoolId c.id c = c := by
    unfold unsetOther
    rw [if_neg (by simp)]
  -- characterize post-enforcement members
  have hmem : ∀ z ∈ (l ++ [c]).map (unsetOther c.schoolId c.id),
      z.isCurrent = true →
      z = c ∨ (∃ y ∈ l, z = unsetOther c.schoolId c.id y ∧
        y.isCurrent = true ∧ y.schoolId ≠ c.schoolId) := by
    intro z hz hcz
    rcases List.mem_map.mp hz with ⟨y, hy, rfl⟩
    rcases List.mem_append.mp hy with hyl | hyc
    · right
      obtain ⟨hyc2, himp⟩ := unsetOther_current hcz
      refine ⟨y, hyl, rfl, hyc2, fun hs => ?_⟩
      have hzid : y.id = c.id := himp hs
      exact hfresh (hzid ▸ List.mem_map_of_mem AcademicYear.id hyl)
    · left
      rw [List.mem_singleton.mp hyc, hself]
  intro z1 hz1 z2 hz2 hc1 hc2 hss
  rcases hmem z1 hz1 hc1 with rfl | ⟨y1, hy1, rfl, hyc1, hys1⟩
  · rcases hmem z2 hz2 hc2 with rfl | ⟨y2, hy2, rfl, hyc2, hys2⟩
    · rfl
    · rw [unsetOther_schoolId] at hss
      exact absurd hss.symm hys2
  · rcases hmem z2 hz2 hc2 with rfl | ⟨y2, hy2, rfl, hyc2, hys2⟩
    · rw [unsetOther_schoolId] at hss
      exact absurd hss hys1
    · rw [unsetOther_id, unsetOther_id]
      rw [unsetOther_schoolId, unsetOther_schoolId] at hss
      exact ha y1 hy1 y2 hy2 hyc1 hyc2 hss

lemma inv_append_noncurrent {l : List AcademicYear} {c : AcademicYear}
    (hfresh : c.id ∉ l.map AcademicYear.id)
    (hcur : c.isCurrent = false)
    (hn : NodupIds l) (ha : AtMostOneCurrent l) :
    NodupIds (l ++ [c]) ∧ AtMostOneCurrent (l ++ [c]) := by
  constructor
  · unfold NodupIds at hn ⊢
    rw [List.map_append, List.nodup_append]
    exact ⟨hn, List.nodup_singleton _,
      by simpa [List.disjoint_singleton] using hfresh⟩
  · intro y1 hy1 y2 hy2 hc1 hc2 hss
    rcases List.mem_append.mp hy1 with h1 | h1
    · rcases List.mem_append.mp hy2 with h2 | h2
      · exact ha y1 h1 y2 h2 hc1 hc2 hss
      · rw [List.mem_singleton.mp h2] at hc2
        rw [hcur] at hc2; cases hc2
    · rw [List.mem_singleton.mp h1] at hc1
      rw [hcur] at hc1; cases hc1

lemma inv_sublist {l1 l2 : List AcademicYear} (hs : l1.Sublist l2)
    (hn : NodupIds l2) (ha : AtMostOneCurrent l2) :
    NodupIds l1 ∧ AtMostOneCurrent l1 := by
  constructor
  · unfold NodupIds at hn ⊢
    exact List.Nodup.sublist (hs.map AcademicYear.id) hn
  · intro y1 hy1 y2 hy2 hc1 hc2 hss
    exact ha y1 (hs.subset hy1) y2 (hs.subset hy2) hc1 hc2 hss

lemma countP_current_le_one {l : List AcademicYear}
    (hn : NodupIds l) (ha : AtMostOneCurrent l) (sch : Nat) :
    l.countP (fun y => y.schoolId == sch && y.isCurrent) ≤ 1 := by
  induction l with
  | nil => simp
  | cons y ys ih =>
    unfold NodupIds at hn
    rw [List.map_cons, List.nodup_cons] at hn
    obtain ⟨hniy, hnys⟩ := hn
    by_cases hp : (y.schoolId == sch && y.isCurrent) = true
    · have hz : ys.countP (fun z => z.schoolId == sch && z.isCurrent) = 0 := by
        rw [List.countP_eq_zero]
        intro z hz1 hpz
        rw [Bool.and_eq_true, beq_iff_eq] at hp hpz
        have hideq : y.id = z.id :=
          ha y (List.mem_cons_self y ys) z (List.mem_cons_of_mem y hz1)
            hp.2 hpz.2 (by rw [hp.1, hpz.1])
        exact hniy (hideq ▸ List.mem_map_of_mem AcademicYear.id hz1)
      simp only [List.countP_cons, hp, if_true, hz]
      omega
    · have hz := ih hnys (fun a h1 b h2 => ha a (List.mem_cons_of_mem y h1)
        b (List.mem_cons_of_mem y h2))
      simp only [List.countP_cons, hp]
      simpa using hz

lemma findYear_spec {s : Store} {id : Nat} {y : AcademicYear}
    (h : findYear s id = some y) : y ∈ s.years ∧ y.id = id := by
  unfold findYear at h
  exact ⟨List.mem_of_find?_eq_some h, by simpa using List.find?_some h⟩

lemma inv_postAcademicYear {s : Store} {fid : Nat} {d : YearCreate}
    {s1 : Store} (hfresh : fid ∉ yearIds s) (hinv : CalendarInv s)
    (h : postAcademicYear s fid d = .ok s1) : CalendarInv s1 := by
  obtain ⟨hn, ha⟩ := hinv
  unfold postAcademicYear at h
  split at h
  · exact absurd h (by simp)
  · rw [Except.ok.injEq] at h
    subst h
    by_cases hc : d.isCurrent.getD false = true
    · rw [if_pos hc]
      unfold validateAndEnforceSingleCurrentAcademicYear
      rw [if_neg (by simp)]
      exact inv_append_enforce (c := newYearRow fid d)
        (by simpa [yearIds, newYearRow] using hfresh) hn ha
    · rw [if_neg hc]
      exact inv_append_noncurrent (c := newYearRow fid d)
        (by simpa [yearIds, newYearRow] using hfresh)
        (by simpa [newYearRow] using hc) hn ha

lemma inv_putAcademicYear {s : Store} {d : YearUpdate} {s1 : Store}
    (hinv : CalendarInv s) (h : putAcademicYear s d = .ok s1) :
    CalendarInv s1 := by
  obtain ⟨hn, ha⟩ := hinv
  unfold putAcademicYear at h
  split at h
  · exact absurd h (by simp)
  · split at h
    · exact absurd h (by simp)
    · rename_i existing hfind
      split at h
      · exact absurd h (by simp)
      · rw [Except.ok.injEq] at h
        subst h
        obtain ⟨hmem, hid⟩ := findYear_spec hfind
        -- the no-enforcement shape: the plain row update
        have hmono : (∀ y ∈ s.years, y.id = d.id →
              (applyYearUpdate d y).isCurrent = true → y.isCurrent = true) →
            CalendarInv { s with years := s.years.map (updateYearRow d) } := by
          intro hcur
          refine ⟨nodupIds_map (updateYearRow_id d) hn, ?_⟩
          refine atMostOne_map_mono (updateYearRow_id d)
            (updateYearRow_schoolId d) ?_ ha
          intro y hy hcy
          by_cases hyid : y.id = d.id
          · rw [show updateYearRow d y = applyYearUpdate d y from
              by unfold updateYearRow; rw [if_pos (by simpa using hyid)]] at hcy
            exact hcur y hy hyid hcy
          · rwa [updateYearRow_other hyid] at hcy
        split
        · -- enforcement branch: d.isCurrent present and differing from stored
          rename_i hb
          cases hiv : d.isCurrent with
          | none => rw [hiv] at hb; simp at hb
          | some b =>
            rw [hiv] at hb
            cases b with
            | true =>
              -- gaining current: enforcement unsets all other current years
              rw [show ((some true).getD false) = true from rfl]
              unfold validateAndEnforceSingleCurrentAcademicYear
              rw [if_neg (by simp)]
              unfold CalendarInv
              simp only [List.map_map]
              exact inv_map_enforce
                (g := unsetOther existing.schoolId d.id ∘ updateYearRow d)
                (c := existing.schoolId) (t := d.id)
                (fun y => by
                  simp only [Function.comp_apply, unsetOther_id,
                    updateYearRow_id])
                (fun y => by
                  simp only [Function.comp_apply, unsetOther_schoolId,
                    updateYearRow_schoolId])
                (fun y hy hcy => by
                  by_cases hyid : y.id = d.id
                  · exact Or.inl hyid
                  · right
                    simp only [Function.comp_apply, updateYearRow_other hyid]
                      at hcy
                    obtain ⟨hc2, himp⟩ := unsetOther_current hcy
                    exact ⟨hc2, fun hsch => hyid (himp hsch)⟩)
                (fun y hy hyid => by
                  have hye : y = existing :=
                    eq_of_mem_of_id_eq hn hy hmem (hyid.trans hid.symm)
                  rw [hye])
                hn ha
            | false =>
              -- losing current: the enforcement call returns s unchanged
              rw [show ((some false).getD false) = false from rfl]
              unfold validateAndEnforceSingleCurrentAcademicYear
              rw [if_pos (by simp)]
              refine hmono ?_
              intro y hy hyid hcy
              rw [show (applyYearUpdate d y).isCurrent =
                d.isCurrent.getD y.isCurrent from rfl, hiv] at hcy
              exact absurd hcy (by simp)
        · -- no enforcement: d.isCurrent absent or equal to the stored flag
          rename_i hnc
          refine hmono ?_
          intro y hy hyid hcy
          have hye : y = existing :=
            eq_of_mem_of_id_eq hn hy hmem (hyid.trans hid.symm)
          rw [show (applyYearUpdate d y).isCurrent =
            d.isCurrent.getD y.isCurrent from rfl] at hcy
          cases hiv : d.isCurrent with
          | none => rwa [hiv, Option.getD_none] at hcy
          | some b =>
            rw [hiv] at hnc
            have hbe : b = existing.isCurrent := by
              by_contra hne
              exact hnc (by simpa using hne)
            rw [hiv, Option.getD_some] at hcy
            rw [hye, ← hbe, hcy]

lemma inv_deleteAcademicYear {s : Store} {id : Nat} {s1 : Store}
    (hinv : CalendarInv s) (h : deleteAcademicYear s id = .ok s1) :
    CalendarInv s1 := by
  obtain ⟨hn, ha⟩ := hinv
  unfold deleteAcademicYear at h
  split at h
  · exact absurd h (by simp)
  · rw [Except.ok.injEq] at h
    subst h
    exact inv_sublist (List.filter_sublist s.years) hn ha

lemma years_postTerm {s : Store} {fid : Nat} {d : TermCreate} {s1 : Store}
    (h : postTerm s fid d = .ok s1) : s1.years = s.years := by
  unfold postTerm at h
  split at h
  · exact absurd h (by simp)
  · split at h
    · exact absurd h (by simp)
    · rw [Except.ok.injEq] at h
      subst h
      rfl

lemma years_putTerm {s : Store} {d : TermUpdate} {s1 : Store}
    (h : putTerm s d = .ok s1) : s1.years = s.years := by
  unfold putTerm at h
  split at h
  · exact absurd h (by simp)
  · split at h
    · exact absurd h (by simp)
    · split at h
      · exact absurd h (by simp)
      · split at h
        · exact absurd h (by simp)
        · rw [Except.ok.injEq] at h
          subst h
          rfl

lemma years_deleteTerm {s : Store} {id : Nat} {s1 : Store}
    (h : deleteTerm s id = .ok s1) : s1.years = s.years := by
  unfold deleteTerm at h
  split at h
  · exact absurd h (by simp)
  · split at h
    · exact absurd h (by simp)
    · split at h
      · exact absurd h (by simp)
      · rw [Except.ok.injEq] at h
        subst h
        rfl

lemma inv_applyOp {s : Store} (op : Op) (hfresh : FreshOp s op)
    (hinv : CalendarInv s) : CalendarInv (applyOp s op) := by
  cases op with
  | createYear fid d =>
    unfold applyOp runOp
    split
    · rename_i s1 hs1
      exact inv_postAcademicYear hfresh hinv hs1
    · exact hinv
  | updateYear d =>
    unfold applyOp runOp
    split
    · rename_i s1 hs1
      exact inv_putAcademicYear hinv hs1
    · exact hinv
  | deleteYear id =>
    unfold applyOp runOp
    split
    · rename_i s1 hs1
      exact inv_deleteAcademicYear hinv hs1
    · exact hinv
  | createTerm fid d =>
    unfold applyOp runOp
    split
    · rename_i s1 hs1
      unfold CalendarInv
      rw [years_postTerm hs1]
      exact hinv
    · exact hinv
  | updateTerm d =>
    unfold applyOp runOp
    split
    · rename_i s1 hs1
      unfold CalendarInv
      rw [years_putTerm hs1]
      exact hinv
    · exact hinv
  | deleteTerm id =>
    unfold applyOp runOp
    split
    · rename_i s1 hs1
      unfold CalendarInv
      rw [years_deleteTerm hs1]
      exact hinv
    · exact hinv

lemma inv_reach {s s1 : Store} (hinv : CalendarInv s) (hr : Reach s s1) :
    CalendarInv s1 := by
  induction hr with
  | refl => exact hinv
  | step s2 op hr2 hfresh ih => exact inv_applyOp op hfresh ih

lemma put_unsets_others {s : Store} {d : YearUpdate} {s2 : Store}
    {ex : AcademicYear} (hinv : CalendarInv s)
    (h : putAcademicYear s d = .ok s2) (hcur : d.isCurrent = some true)
    (hfind : findYear s d.id = some ex) :
    ∀ y ∈ s2.years, y.schoolId = ex.schoolId → y.id ≠ d.id →
      y.isCurrent = false := by
  obtain ⟨hn, ha⟩ := hinv
  unfold putAcademicYear at h
  split at h
  · exact absurd h (by simp)
  · split at h
    · exact absurd h (by simp)
    · rename_i existing hfind2
      have hex : existing = ex := by
        rw [hfind2] at hfind
        exact Option.some.inj hfind
      subst hex
      split at h
      · exact absurd h (by simp)
      · rw [Except.ok.injEq] at h
        subst h
        obtain ⟨hmem, hid⟩ := findYear_spec hfind2
        split
        · -- enforcement branch
          rename_i hb
          rw [hcur, Option.getD_some]
          unfold validateAndEnforceSingleCurrentAcademicYear
          rw [if_neg (by simp)]
          intro z hz hsch hzid
          simp only [List.map_map] at hz
          rcases List.mem_map.mp hz with ⟨y, hy, rfl⟩
          simp only [Function.comp_apply] at hsch hzid ⊢
          by_contra hne
          rw [Bool.not_eq_false] at hne
          obtain ⟨hc2, himp⟩ := unsetOther_current hne
          have hyid : (updateYearRow d y).id = d.id :=
            himp (by rw [← unsetOther_schoolId existing.schoolId d.id]
                     exact hsch)
          exact hzid (by rw [unsetOther_id]; exact hyid)
        · -- no enforcement: the target was already the current year
          rename_i hnc
          rw [hcur] at hnc
          have hexc : existing.isCurrent = true := by
            cases hcc : existing.isCurrent
            · exact absurd (by rw [hcc]; decide) hnc
            · rfl
          intro z hz hsch hzid
          rcases List.mem_map.mp hz with ⟨y, hy, rfl⟩
          have hyid : y.id ≠ d.id := by
            rwa [updateYearRow_id] at hzid
          rw [updateYearRow_other hyid] at hsch ⊢
          by_contra hne
          rw [Bool.not_eq_false] at hne
          exact hyid ((ha y hy existing hmem hne hexc hsch).trans hid)

lemma post_unsets_others {s : Store} {fid : Nat} {d : YearCreate}
    {s2 : Store} (h : postAcademicYear s fid d = .ok s2)
    (hcur : d.isCurrent = some true) :
    ∀ y ∈ s2.years, y.schoolId = d.schoolId → y.id ≠ fid →
      y.isCurrent = false := by
  unfold postAcademicYear at h
  split at h
  · exact absurd h (by simp)
  · rw [Except.ok.injEq] at h
    subst h
    simp only [hcur, Option.getD_some, if_true]
    unfold validateAndEnforceSingleCurrentAcademicYear
    rw [if_neg (by simp)]
    intro z hz hsch hzid
    rcases List.mem_map.mp hz with ⟨y, hy, rfl⟩
    by_contra hne
    rw [Bool.not_eq_false] at hne
    obtain ⟨hc2, himp⟩ := unsetOther_current hne
    have hyid : y.id = fid :=
      himp (by rw [← unsetOther_schoolId d.schoolId fid]; exact hsch)
    exact hzid (by rw [unsetOther_id]; exact hyid)

/-- C1: after every finite sequence of core operations starting from a store
satisfying the calendar invariant, each school has at most one current
AcademicYear; moreover a write that sets isCurrent=true (update or create)
leaves, inside the same atomic transaction, every other AcademicYear of the
target's school with isCurrent=false. -/
theorem single_current_per_school (s s1 : Store) (hinv : CalendarInv s)
    (hr : Reach s s1) :
    (∀ schoolId : Nat, currentCount s1 schoolId ≤ 1) ∧
    (∀ (d : YearUpdate) (s2 : Store) (ex : AcademicYear),
      putAcademicYear s1 d = .ok s2 → d.isCurrent = some true →
      findYear s1 d.id = some ex →
      ∀ y ∈ s2.years, y.schoolId = ex.schoolId → y.id ≠ d.id →
        y.isCurrent = false) ∧
    (∀ (fid : Nat) (d : YearCreate) (s2 : Store),
      postAcademicYear s1 fid d = .ok s2 → d.isCurrent = some true →
      ∀ y ∈ s2.years, y.schoolId = d.schoolId → y.id ≠ fid →
        y.isCurrent = false) := by
  have hinv1 := inv_reach hinv hr
  refine ⟨fun sch => countP_current_le_one hinv1.1 hinv1.2 sch, ?_, ?_⟩
  · intro d s2 ex hput hcur hfind
    exact put_unsets_others hinv1 hput hcur hfind
  · intro fid d s2 hpost hcur
    exact post_unsets_others hpost hcur

/-- Closed instance of C1: two successive current-year creations for school 1
leave at most one current year. -/
theorem single_current_per_school_witness :
    currentCount
      (applyOp (applyOp ⟨[], []⟩
          (Op.createYear 1 ⟨1, "Y1", 0, 100, some true, none⟩))
        (Op.createYear 2 ⟨1, "Y2", 200, 300, some true, none⟩)) 1 ≤ 1 :=
  (single_current_per_school ⟨[], []⟩ _
    ⟨List.nodup_nil, fun y1 hy1 => absurd hy1 (List.not_mem_nil y1)⟩
    (Reach.step ⟨[], []⟩
      (applyOp ⟨[], []⟩ (Op.createYear 1 ⟨1, "Y1", 0, 100, some true, none⟩))
      (Op.createYear 2 ⟨1, "Y2", 200, 300, some true, none⟩)
      (Reach.step ⟨[], []⟩ ⟨[], []⟩
        (Op.createYear 1 ⟨1, "Y1", 0, 100, some true, none⟩)
        (Reach.refl ⟨[], []⟩)
        (by show (1 : Nat) ∉ yearIds ⟨[], []⟩
            decide))
      (by show (2 : Nat) ∉ yearIds
            (applyOp ⟨[], []⟩
              (Op.createYear 1 ⟨1, "Y1", 0, 100, some true, none⟩))
          decide))).1 1

/-! ### Overlap detection (claim C2). -/

lemma validateAcademicYear_eq {st : Store} {data : YearData}
    (hdr : data.startDate < data.endDate) :
    validateAcademicYear st data =
      (match (yearSiblings st data.schoolId data.id).find?
          (yearOverlaps data.startDate data.endDate) with
       | some y => .error (.overlap y.name)
       | none => .ok ()) := by
  unfold validateAcademicYear validateDateRange
  rw [if_neg (by omega)]

/-- C2: for well-formed intervals (start < end), the implemented three-branch
overlap condition (sibling contains candidate start, or sibling contains
candidate end, or candidate contains sibling) is equivalent to the
closed-interval test s1 ≤ e2 ∧ s2 ≤ e1, for AcademicYears and for Terms; and
validateAcademicYear fails with Overlap exactly when some sibling
(same school, excluding the updated entity) intersects the candidate under
the closed-interval test. -/
theorem overlap_check_iff_closed :
    (∀ (sib : AcademicYear) (s e : Int), s < e →
      sib.startDate < sib.endDate →
      (yearOverlaps s e sib = true ↔
        (sib.startDate ≤ e ∧ s ≤ sib.endDate))) ∧
    (∀ (sib : Term) (s e : Int), s < e → sib.startDate < sib.endDate →
      (termOverlaps s e sib = true ↔
        (sib.startDate ≤ e ∧ s ≤ sib.endDate))) ∧
    (∀ (st : Store) (data : YearData), data.startDate < data.endDate →
      (∀ y ∈ st.years, y.startDate < y.endDate) →
      ((∃ n, validateAcademicYear st data = .error (.overlap n)) ↔
        (∃ y ∈ yearSiblings st data.schoolId data.id,
          y.startDate ≤ data.endDate ∧ data.startDate ≤ y.endDate))) := by
  refine ⟨?_, ?_, ?_⟩
  · intro sib s e hse hsib
    unfold yearOverlaps
    simp only [Bool.or_eq_true, Bool.and_eq_true, decide_eq_true_eq]
    omega
  · intro sib s e hse hsib
    unfold termOverlaps
    simp only [Bool.or_eq_true, Bool.and_eq_true, decide_eq_true_eq]
    omega
  · intro st data hdr hwf
    have hiff : ∀ y ∈ yearSiblings st data.schoolId data.id,
        (yearOverlaps data.startDate data.endDate y = true ↔
          (y.startDate ≤ data.endDate ∧ data.startDate ≤ y.endDate)) := by
      intro y hy1
      have hmem : y ∈ st.years := List.mem_of_mem_filter hy1
      have hwfy := hwf y hmem
      unfold yearOverlaps
      simp only [Bool.or_eq_true, Bool.and_eq_true, decide_eq_true_eq]
      omega
    rw [validateAcademicYear_eq hdr]
    cases hf : (yearSiblings st data.schoolId data.id).find?
        (yearOverlaps data.startDate data.endDate) with
    | none =>
      constructor
      · rintro ⟨n, hn⟩
        exact Except.noConfusion hn
      · rintro ⟨y, hy1, hov⟩
        exact absurd ((hiff y hy1).mpr hov) (List.find?_eq_none.mp hf y hy1)
    | some y =>
      constructor
      · rintro ⟨n, hn⟩
        exact ⟨y, List.mem_of_find?_eq_some hf,
          (hiff y (List.mem_of_find?_eq_some hf)).mp (List.find?_some hf)⟩
      · intro hex
        exact ⟨y.name, rfl⟩

/-- Closed instance of C2: the three-branch condition agrees with the
closed-interval test on a concrete pair of intervals. -/
theorem overlap_check_iff_closed_witness :
    yearOverlaps 0 10 ⟨1, 1, "Y", 5, 20, false, false⟩ = true ↔
      ((5 : Int) ≤ 10 ∧ (0 : Int) ≤ 20) :=
  overlap_check_iff_closed.1 ⟨1, 1, "Y", 5, 20, false, false⟩ 0 10
    (by decide) (by decide)

/-! ### Lock protection (claim C3). -/

lemma assert_year_locked {st : Store} {id : Nat} {y : AcademicYear}
    (hfind : findYear st id = some y) (hl : y.isLocked = true) :
    assertAcademicYearNotLocked st id = .error (.locked y.name) := by
  unfold assertAcademicYearNotLocked
  rw [hfind]
  simp only [hl, if_true]

lemma assert_term_locked {st : Store} {id : Nat} {t : Term}
    (hfind : findTerm st id = some t) (hl : t.isLocked = true) :
    assertTermNotLocked st id = .error (.locked t.name) := by
  unfold assertTermNotLocked
  rw [hfind]
  simp only [hl, if_true]

/-- C3: a mutation (UPDATE) or deletion (DELETE) of a locked AcademicYear or
Term fails with the Locked error, and the whole store is unchanged by the
call, because the lock check runs inside the transaction before any write. -/
theorem locked_entity_rejected :
    (∀ (st : Store) (d : YearUpdate) (y : AcademicYear),
      findYear st d.id = some y → y.isLocked = true →
      putAcademicYear st d = .error (.locked y.name) ∧
        applyOp st (.updateYear d) = st) ∧
    (∀ (st : Store) (id : Nat) (y : AcademicYear),
      findYear st id = some y → y.isLocked = true →
      deleteAcademicYear st id = .error (.locked y.name) ∧
        applyOp st (.deleteYear id) = st) ∧
    (∀ (st : Store) (d : TermUpdate) (t : Term),
      findTerm st d.id = some t → t.isLocked = true →
      putTerm st d = .error (.locked t.name) ∧
        applyOp st (.updateTerm d) = st) ∧
    (∀ (st : Store) (id : Nat) (t : Term),
      findTerm st id = some t → t.isLocked = true →
      deleteTerm st id = .error (.locked t.name) ∧
        applyOp st (.deleteTerm id) = st) := by
  refine ⟨?_, ?_, ?_, ?_⟩
  · intro st d y hfind hl
    have hput : putAcademicYear st d = .error (.locked y.name) := by
      unfold putAcademicYear
      rw [assert_year_locked hfind hl]
    refine ⟨hput, ?_⟩
    simp only [applyOp, runOp, hput]
  · intro st id y hfind hl
    have hdel : deleteAcademicYear st id = .error (.locked y.name) := by
      unfold deleteAcademicYear
      rw [assert_year_locked hfind hl]
    refine ⟨hdel, ?_⟩
    simp only [applyOp, runOp, hdel]
  · intro st d t hfind hl
    have hput : putTerm st d = .error (.locked t.name) := by
      unfold putTerm
      rw [assert_term_locked hfind hl]
    refine ⟨hput, ?_⟩
    simp only [applyOp, runOp, hput]
  · intro st id t hfind hl
    have hdel : deleteTerm st id = .error (.locked t.name) := by
      unfold deleteTerm
      rw [assert_term_locked hfind hl]
    refine ⟨hdel, ?_⟩
    simp only [applyOp, runOp, hdel]

/-- Closed instance of C3: updating a locked year fails Locked and leaves the
store unchanged. -/
theorem locked_entity_rejected_witness :
    putAcademicYear ⟨[⟨5, 2, "YL", 0, 100, false, true⟩], []⟩
        ⟨5, some "X", none, none, none, none⟩ = .error (.locked "YL") ∧
      applyOp ⟨[⟨5, 2, "YL", 0, 100, false, true⟩], []⟩
        (.updateYear ⟨5, some "X", none, none, none, none⟩) =
        ⟨[⟨5, 2, "YL", 0, 100, false, true⟩], []⟩ :=
  locked_entity_rejected.1 ⟨[⟨5, 2, "YL", 0, 100, false, true⟩], []⟩
    ⟨5, some "X", none, none, none, none⟩ ⟨5, 2, "YL", 0, 100, false, true⟩
    rfl rfl

/-! ### Validator ordering (claim C4). -/

/-- The validator ordering the spec claims for an AcademicYear update,
written from the spec sentence for comparison with putAcademicYear:
DateRangeValidator first, then LockGuard, then OverlapDetector, then the
persisted update with (if setting current) the SingleCurrentEnforcer. -/
def specOrderPutAcademicYear (s : Store) (d : YearUpdate) :
    Except RuleError Store :=
  match findYear s d.id with
  | none => .error (.notFound "Academic year not found")
  | some existing =>
    match (if d.startDate.isSome || d.endDate.isSome then
            validateDateRange (d.startDate.getD existing.startDate)
              (d.endDate.getD existing.endDate) "Academic year"
          else .ok ()) with
    | .error e => .error e
    | .ok _ =>
      match assertAcademicYearNotLocked s d.id with
      | .error e => .error e
      | .ok _ =>
        match (if d.startDate.isSome || d.endDate.isSome then
                validateAcademicYear s
                  { schoolId := existing.schoolId, id := some d.id,
                    name := d.name.getD existing.name,
                    startDate := d.startDate.getD existing.startDate,
                    endDate := d.endDate.getD existing.endDate,
                    isCurrent := d.isCurrent.getD existing.isCurrent }
              else .ok ()) with
        | .error e => .error e
        | .ok _ =>
          .ok (if (match d.isCurrent with
                   | some b => b != existing.isCurrent
                   | none => false) then
                validateAndEnforceSingleCurrentAcademicYear
                  { s with years := s.years.map (updateYearRow d) }
                  existing.schoolId d.id (d.isCurrent.getD false)
              else { s with years := s.years.map (updateYearRow d) })

/-- C4 counterexample: the claimed order (DateRangeValidator before
LockGuard) disagrees with the code.  On a locked year with an invalid-range
payload the code fails Locked, while the claimed ordering fails
InvalidRange. -/
theorem validator_order_counterexample :
    putAcademicYear ⟨[⟨5, 1, "YL", 0, 100, false, true⟩], []⟩
        ⟨5, none, some 50, some 40, none, none⟩ = .error (.locked "YL") ∧
    specOrderPutAcademicYear ⟨[⟨5, 1, "YL", 0, 100, false, true⟩], []⟩
        ⟨5, none, some 50, some 40, none, none⟩ =
      .error (.invalidRange "Academic year") ∧
    RuleError.locked "YL" ≠ RuleError.invalidRange "Academic year" :=
  ⟨rfl, rfl, by decide⟩

lemma assert_year_unlocked {st : Store} {id : Nat} {y : AcademicYear}
    (hfind : findYear st id = some y) (hl : y.isLocked = false) :
    assertAcademicYearNotLocked st id = .ok () := by
  unfold assertAcademicYearNotLocked
  rw [hfind]
  simp only [hl, Bool.false_eq_true, if_false]

lemma validateAcademicYear_invalidRange {st : Store} {data : YearData}
    (h : data.endDate ≤ data.startDate) :
    validateAcademicYear st data =
      .error (.invalidRange "Academic year") := by
  unfold validateAcademicYear validateDateRange
  rw [if_pos (by omega)]

lemma validateTerm_invalidRange {st : Store} {data : TermData}
    (h : data.endDate ≤ data.startDate) :
    validateTerm st data = .error (.invalidRange "Term") := by
  unfold validateTerm validateDateRange
  rw [if_pos (by omega)]

lemma validateTerm_outOfBounds {st : Store} {data : TermData}
    {y : AcademicYear} (hdr : data.startDate < data.endDate)
    (hfind : findYear st data.academicYearId = some y)
    (hoob : data.startDate < y.startDate ∨ data.endDate > y.endDate) :
    validateTerm st data = .error .outOfBounds := by
  unfold validateTerm validateDateRange
  rw [if_neg (by omega)]
  simp only [hfind, hoob, if_true]

/-- C4 (amended): any validator failure short-circuits with no write
performed, and the actual order runs the LockGuard first: a locked target
(or locked parent, for Term creation) fails Locked regardless of the
payload dates; then the DateRangeValidator (InvalidRange regardless of
siblings); then, for Terms, the ContainmentValidator (OutOfBounds regardless
of sibling overlap); then the OverlapDetector; the persisted write and the
SingleCurrentEnforcer share the same atomic transaction. -/
theorem validator_order_amended :
    (∀ (st : Store) (op : Op) (e : RuleError), runOp st op = .error e →
      applyOp st op = st) ∧
    (∀ (st : Store) (d : YearUpdate) (y : AcademicYear),
      findYear st d.id = some y → y.isLocked = true →
      putAcademicYear st d = .error (.locked y.name)) ∧
    (∀ (st : Store) (d : YearUpdate) (y : AcademicYear),
      findYear st d.id = some y → y.isLocked = false →
      (d.startDate.isSome || d.endDate.isSome) = true →
      d.endDate.getD y.endDate ≤ d.startDate.getD y.startDate →
      putAcademicYear st d = .error (.invalidRange "Academic year")) ∧
    (∀ (st : Store) (fid : Nat) (d : TermCreate) (y : AcademicYear),
      findYear st d.academicYearId = some y → y.isLocked = true →
      postTerm st fid d = .error (.locked y.name)) ∧
    (∀ (st : Store) (fid : Nat) (d : TermCreate) (y : AcademicYear),
      findYear st d.academicYearId = some y → y.isLocked = false →
      d.endDate ≤ d.startDate →
      postTerm st fid d = .error (.invalidRange "Term")) ∧
    (∀ (st : Store) (fid : Nat) (d : TermCreate) (y : AcademicYear),
      findYear st d.academicYearId = some y → y.isLocked = false →
      d.startDate < d.endDate →
      (d.startDate < y.startDate ∨ d.endDate > y.endDate) →
      postTerm st fid d = .error .outOfBounds) := by
  refine ⟨?_, ?_, ?_, ?_, ?_, ?_⟩
  · intro st op e h
    unfold applyOp
    rw [h]
  · intro st d y hfind hl
    unfold putAcademicYear
    rw [assert_year_locked hfind hl]
  · intro st d y hfind hl hsome hrange
    unfold putAcademicYear
    rw [assert_year_unlocked hfind hl, hfind]
    simp only [hsome, if_true]
    rw [validateAcademicYear_invalidRange (by exact hrange)]
  · intro st fid d y hfind hl
    unfold postTerm
    rw [assert_year_locked hfind hl]
  · intro st fid d y hfind hl hrange
    unfold postTerm
    rw [assert_year_unlocked hfind hl,
      validateTerm_invalidRange (by exact hrange)]
  · intro st fid d y hfind hl hdr hoob
    unfold postTerm
    rw [assert_year_unlocked hfind hl,
      validateTerm_outOfBounds (by exact hdr) (by exact hfind)
        (by exact hoob)]

/-- Closed instance of the amended C4: a Term whose range leaves its
(unlocked) parent year fails OutOfBounds even though a sibling term also
overlaps it. -/
theorem validator_order_amended_witness :
    postTerm ⟨[⟨1, 1, "Y", 0, 100, false, false⟩],
        [⟨10, 1, "T", 0, 50, false⟩]⟩ 11 ⟨1, "T2", -5, 40, none⟩ =
      .error .outOfBounds :=
  validator_order_amended.2.2.2.2.2
    ⟨[⟨1, 1, "Y", 0, 100, false, false⟩], [⟨10, 1, "T", 0, 50, false⟩]⟩
    11 ⟨1, "T2", -5, 40, none⟩ ⟨1, 1, "Y", 0, 100, false, false⟩
    rfl rfl (by decide) (by decide)

/-! ### HTTP status mapping (claim C5). -/

/-- HTTP status of the PUT /api/academic-years response: 200 on success,
and 400 for every BusinessRuleError (the handler catch block maps the whole
class, including the not-found messages, to status 400). -/
def putAcademicYearStatus (s : Store) (d : YearUpdate) : Nat :=
  match putAcademicYear s d with
  | .ok _ => 200
  | .error _ => 400

/-- HTTP status of the POST /api/academic-years response. -/
def postAcademicYearStatus (s : Store) (fid : Nat) (d : YearCreate) : Nat :=
  match postAcademicYear s fid d with
  | .ok _ => 201
  | .error _ => 400

/-- HTTP status of the DELETE /api/academic-years response. -/
def deleteAcademicYearStatus (s : Store) (id : Nat) : Nat :=
  match deleteAcademicYear s id with
  | .ok _ => 204
  | .error _ => 400

/-- HTTP status of the POST /api/terms response. -/
def postTermStatus (s : Store) (fid : Nat) (d : TermCreate) : Nat :=
  match postTerm s fid d with
  | .ok _ => 201
  | .error _ => 400

/-- HTTP status of the PUT /api/terms response. -/
def putTermStatus (s : Store) (d : TermUpdate) : Nat :=
  match putTerm s d with
  | .ok _ => 200
  | .error _ => 400

/-- HTTP status of the DELETE /api/terms response. -/
def deleteTermStatus (s : Store) (id : Nat) : Nat :=
  match deleteTerm s id with
  | .ok _ => 204
  | .error _ => 400

/-- C5 counterexample: updating a nonexistent AcademicYear fails with the
not-found BusinessRuleError, and the handler returns HTTP 400, not 404. -/
theorem error_status_counterexample :
    putAcademicYear ⟨[], []⟩ ⟨7, none, none, none, none, none⟩ =
      .error (.notFound "Academic year not found") ∧
    putAcademicYearStatus ⟨[], []⟩ ⟨7, none, none, none, none, none⟩ = 400 ∧
    putAcademicYearStatus ⟨[], []⟩ ⟨7, none, none, none, none, none⟩ ≠ 404 :=
  ⟨rfl, rfl, by decide⟩

/-- C5 (amended): the calendar routes map every BusinessRuleError — absent
referenced entity (NotFound message), ValidationError (InvalidRange, Overlap,
OutOfBounds) and LockError (Locked) alike — to HTTP status 400; no 404 is
produced. -/
theorem error_status_amended :
    (∀ (st : Store) (d : YearUpdate) (e : RuleError),
      putAcademicYear st d = .error e → putAcademicYearStatus st d = 400) ∧
    (∀ (st : Store) (fid : Nat) (d : YearCreate) (e : RuleError),
      postAcademicYear st fid d = .error e →
        postAcademicYearStatus st fid d = 400) ∧
    (∀ (st : Store) (id : Nat) (e : RuleError),
      deleteAcademicYear st id = .error e →
        deleteAcademicYearStatus st id = 400) ∧
    (∀ (st : Store) (fid : Nat) (d : TermCreate) (e : RuleError),
      postTerm st fid d = .error e → postTermStatus st fid d = 400) ∧
    (∀ (st : Store) (d : TermUpdate) (e : RuleError),
      putTerm st d = .error e → putTermStatus st d = 400) ∧
    (∀ (st : Store) (id : Nat) (e : RuleError),
      deleteTerm st id = .error e → deleteTermStatus st id = 400) := by
  refine ⟨?_, ?_, ?_, ?_, ?_, ?_⟩
  · intro st d e h
    unfold putAcademicYearStatus
    rw [h]
  · intro st fid d e h
    unfold postAcademicYearStatus
    rw [h]
  · intro st id e h
    unfold deleteAcademicYearStatus
    rw [h]
  · intro st fid d e h
    unfold postTermStatus
    rw [h]
  · intro st d e h
    unfold putTermStatus
    rw [h]
  · intro st id e h
    unfold deleteTermStatus
    rw [h]

/-- Closed instance of the amended C5: the not-found update returns 400. -/
theorem error_status_amended_witness :
    putAcademicYearStatus ⟨[], []⟩ ⟨7, none, none, none, none, none⟩ = 400 :=
  error_status_amended.1 ⟨[], []⟩ ⟨7, none, none, none, none, none⟩
    (.notFound "Academic year not found") rfl

/-! ### Lock state machine (claim C6). -/

lemma enforce_preserves {s : Store} (c t : Nat) (b : Bool) :
    ∀ y ∈ s.years,
      ∃ y2 ∈ (validateAndEnforceSingleCurrentAcademicYear s c t b).years,
        y2.id = y.id ∧ y2.isLocked = y.isLocked := by
  intro y hy
  unfold validateAndEnforceSingleCurrentAcademicYear
  split
  · exact ⟨y, hy, rfl, rfl⟩
  · exact ⟨unsetOther c t y, List.mem_map_of_mem _ hy,
      unsetOther_id c t y, unsetOther_isLocked c t y⟩

lemma post_year_preserves {st : Store} {fid : Nat} {dc : YearCreate}
    {s1 : Store} (h : postAcademicYear st fid dc = .ok s1) :
    ∀ y ∈ st.years, ∃ y2 ∈ s1.years,
      y2.id = y.id ∧ y2.isLocked = y.isLocked := by
  unfold postAcademicYear at h
  split at h
  · exact absurd h (by simp)
  · rw [Except.ok.injEq] at h
    subst h
    intro y hy
    by_cases hc : dc.isCurrent.getD false = true
    · rw [if_pos hc]
      unfold validateAndEnforceSingleCurrentAcademicYear
      rw [if_neg (by simp)]
      exact ⟨unsetOther dc.schoolId fid y,
        List.mem_map_of_mem _ (List.mem_append_left _ hy),
        unsetOther_id dc.schoolId fid y,
        unsetOther_isLocked dc.schoolId fid y⟩
    · rw [if_neg hc]
      exact ⟨y, List.mem_append_left _ hy, rfl, rfl⟩

lemma assert_ok_unlocked {st : Store} {i : Nat} {u : Unit}
    (ha : assertAcademicYearNotLocked st i = .ok u) :
    ∀ z, findYear st i = some z → z.isLocked = false := by
  intro z hf
  unfold assertAcademicYearNotLocked at ha
  simp only [hf] at ha
  by_cases hb : z.isLocked = true
  · rw [if_pos hb] at ha
    exact absurd ha (by simp)
  · rwa [Bool.not_eq_true] at hb

lemma put_year_preserves_locked {st : Store} {d : YearUpdate} {s1 : Store}
    (hn : NodupIds st.years) (h : putAcademicYear st d = .ok s1) :
    ∀ y ∈ st.years, y.isLocked = true →
      ∃ y2 ∈ s1.years, y2.id = y.id ∧ y2.isLocked = true := by
  unfold putAcademicYear at h
  split at h
  · exact absurd h (by simp)
  · rename_i ha1
    split at h
    · exact absurd h (by simp)
    · rename_i existing hfind
      split at h
      · exact absurd h (by simp)
      · rw [Except.ok.injEq] at h
        subst h
        obtain ⟨hmem, hid⟩ := findYear_spec hfind
        intro y hy hl
        by_cases hyid : y.id = d.id
        · have hey : existing = y :=
            eq_of_mem_of_id_eq hn hmem hy (hid.trans hyid.symm)
          have hexl := assert_ok_unlocked ha1 existing hfind
          rw [hey, hl] at hexl
          exact Bool.noConfusion hexl
        · split
          · obtain ⟨y2, hy2, hid2, hlk2⟩ :=
              enforce_preserves
                (s := { st with years := st.years.map (updateYearRow d) })
                existing.schoolId d.id (d.isCurrent.getD false)
                (updateYearRow d y) (List.mem_map_of_mem _ hy)
            exact ⟨y2, hy2, by rw [hid2, updateYearRow_id],
              by rw [hlk2, updateYearRow_other hyid]; exact hl⟩
          · exact ⟨updateYearRow d y, List.mem_map_of_mem _ hy,
              updateYearRow_id d y,
              by rw [updateYearRow_other hyid]; exact hl⟩

lemma delete_year_preserves_locked {st : Store} {i : Nat} {s1 : Store}
    (hn : NodupIds st.years) (h : deleteAcademicYear st i = .ok s1) :
    ∀ y ∈ st.years, y.isLocked = true →
      ∃ y2 ∈ s1.years, y2.id = y.id ∧ y2.isLocked = true := by
  unfold deleteAcademicYear at h
  split at h
  · exact absurd h (by simp)
  · rename_i ha1
    rw [Except.ok.injEq] at h
    subst h
    intro y hy hl
    by_cases hyid : y.id = i
    · cases hf : findYear st i with
      | none =>
        unfold assertAcademicYearNotLocked at ha1
        rw [hf] at ha1
        exact absurd ha1 (by simp)
      | some z =>
        obtain ⟨hzm, hzi⟩ := findYear_spec hf
        have hzy : z = y :=
          eq_of_mem_of_id_eq hn hzm hy (hzi.trans hyid.symm)
        have hzl := assert_ok_unlocked ha1 z hf
        rw [hzy, hl] at hzl
        exact Bool.noConfusion hzl
    · exact ⟨y, List.mem_filter.mpr ⟨hy, by simpa using hyid⟩, rfl, hl⟩

/-- C6 counterexample: the claimed explicit unlock transition does not exist.
Sending isLocked=false for a locked year fails Locked and leaves it locked. -/
theorem lock_state_machine_counterexample :
    putAcademicYear ⟨[⟨5, 2, "YL", 0, 100, false, true⟩], []⟩
        ⟨5, none, none, none, none, some false⟩ = .error (.locked "YL") ∧
      applyOp ⟨[⟨5, 2, "YL", 0, 100, false, true⟩], []⟩
        (.updateYear ⟨5, none, none, none, none, some false⟩) =
        ⟨[⟨5, 2, "YL", 0, 100, false, true⟩], []⟩ :=
  ⟨rfl, rfl⟩

/-- C6 (amended): isLocked transitions false→true through UPDATE (the lock
action exists), but once a year is Locked no operation of the API surface
unlocks or deletes it: after every operation a year with the same id is
still stored with isLocked=true.  Locked is terminal for AcademicYears — no
unlock path, explicit or implicit, exists.  (A locked Term can still vanish
through the cascade delete of its unlocked parent year.) -/
theorem lock_state_machine_amended :
    (∀ (st : Store) (y : AcademicYear),
      findYear st y.id = some y → y.isLocked = false →
      ∃ s2, putAcademicYear st
          ⟨y.id, none, none, none, none, some true⟩ = .ok s2 ∧
        ∃ y2 ∈ s2.years, y2.id = y.id ∧ y2.isLocked = true) ∧
    (∀ (st : Store) (op : Op) (y : AcademicYear),
      NodupIds st.years → y ∈ st.years → y.isLocked = true →
      ∃ y2 ∈ (applyOp st op).years, y2.id = y.id ∧ y2.isLocked = true) := by
  constructor
  · intro st y hfind hl
    have hput : putAcademicYear st ⟨y.id, none, none, none, none, some true⟩ =
        .ok { st with years := st.years.map (updateYearRow ⟨y.id, none, none, none, none, some true⟩) } := by
      unfold putAcademicYear
      rw [assert_year_unlocked hfind hl, hfind]
      rfl
    refine ⟨_, hput,
      updateYearRow ⟨y.id, none, none, none, none, some true⟩ y,
      List.mem_map_of_mem _ (findYear_spec hfind).1, ?_, ?_⟩
    · exact updateYearRow_id _ y
    · unfold updateYearRow
      rw [if_pos (by simp)]
      rfl
  · intro st op y hn hy hl
    cases op with
    | createYear fid dc =>
      unfold applyOp runOp
      split
      · rename_i s1 hs1
        obtain ⟨y2, hy2, hid2, hlk2⟩ := post_year_preserves hs1 y hy
        exact ⟨y2, hy2, hid2, hlk2.trans hl⟩
      · exact ⟨y, hy, rfl, hl⟩
    | updateYear d =>
      unfold applyOp runOp
      split
      · rename_i s1 hs1
        exact put_year_preserves_locked hn hs1 y hy hl
      · exact ⟨y, hy, rfl, hl⟩
    | deleteYear i =>
      unfold applyOp runOp
      split
      · rename_i s1 hs1
        exact delete_year_preserves_locked hn hs1 y hy hl
      · exact ⟨y, hy, rfl, hl⟩
    | createTerm fid dt =>
      unfold applyOp runOp
      split
      · rename_i s1 hs1
        rw [years_postTerm hs1]
        exact ⟨y, hy, rfl, hl⟩
      · exact ⟨y, hy, rfl, hl⟩
    | updateTerm dt =>
      unfold applyOp runOp
      split
      · rename_i s1 hs1
        rw [years_putTerm hs1]
        exact ⟨y, hy, rfl, hl⟩
      · exact ⟨y, hy, rfl, hl⟩
    | deleteTerm i =>
      unfold applyOp runOp
      split
      · rename_i s1 hs1
        rw [years_deleteTerm hs1]
        exact ⟨y, hy, rfl, hl⟩
      · exact ⟨y, hy, rfl, hl⟩

/-- Closed instance of the amended C6: deleting a locked year leaves it
stored and locked. -/
theorem lock_state_machine_amended_witness :
    ∃ y2 ∈ (applyOp ⟨[⟨5, 2, "YL", 0, 100, false, true⟩], []⟩
        (Op.deleteYear 5)).years, y2.id = 5 ∧ y2.isLocked = true :=
  lock_state_machine_amended.2 ⟨[⟨5, 2, "YL", 0, 100, false, true⟩], []⟩
    (Op.deleteYear 5) ⟨5, 2, "YL", 0, 100, false, true⟩
    (by show (List.map AcademicYear.id
        [⟨5, 2, "YL", 0, 100, false, true⟩]).Nodup
        decide)
    (List.mem_singleton.mpr rfl) rfl

/-! ### Cascade deletion (claim C7). -/

/-- C7: DELETE of an existing AcademicYear fails Locked exactly when the
year itself is locked; when it is not locked the deletion succeeds and
removes the year together with all of its child Terms, with no check of any
individual Term's isLocked flag. -/
theorem delete_year_cascade :
    (∀ (st : Store) (i : Nat) (y : AcademicYear),
      findYear st i = some y →
      ((∃ n, deleteAcademicYear st i = .error (.locked n)) ↔
        y.isLocked = true)) ∧
    (∀ (st : Store) (i : Nat) (y : AcademicYear),
      findYear st i = some y → y.isLocked = false →
      deleteAcademicYear st i =
        .ok ⟨st.years.filter (fun z => z.id != i),
             st.terms.filter (fun t => t.academicYearId != i)⟩) ∧
    (∀ (st : Store) (i : Nat) (y : AcademicYear) (s1 : Store) (t : Term),
      findYear st i = some y → y.isLocked = false →
      deleteAcademicYear st i = .ok s1 →
      t ∈ st.terms → t.academicYearId = i → t ∉ s1.terms) := by
  have hok : ∀ (st : Store) (i : Nat) (y : AcademicYear),
      findYear st i = some y → y.isLocked = false →
      deleteAcademicYear st i =
        .ok ⟨st.years.filter (fun z => z.id != i),
             st.terms.filter (fun t => t.academicYearId != i)⟩ := by
    intro st i y hfind hb
    unfold deleteAcademicYear
    rw [assert_year_unlocked hfind hb]
  refine ⟨?_, hok, ?_⟩
  · intro st i y hfind
    constructor
    · rintro ⟨n, hn⟩
      by_contra hb
      rw [Bool.not_eq_true] at hb
      rw [hok st i y hfind hb] at hn
      exact Except.noConfusion hn
    · intro hb
      refine ⟨y.name, ?_⟩
      unfold deleteAcademicYear
      rw [assert_year_locked hfind hb]
  · intro st i y s1 t hfind hb hdel ht hti
    rw [hok st i y hfind hb, Except.ok.injEq] at hdel
    subst hdel
    intro hmem
    have hpred := (List.mem_filter.mp hmem).2
    rw [hti] at hpred
    simp at hpred

/-- Closed instance of C7: deleting an unlocked year removes it and its
locked child term. -/
theorem delete_year_cascade_witness :
    deleteAcademicYear ⟨[⟨1, 1, "Y", 0, 100, false, false⟩],
        [⟨10, 1, "T", 0, 50, true⟩]⟩ 1 = .ok ⟨[], []⟩ :=
  delete_year_cascade.2.1 ⟨[⟨1, 1, "Y", 0, 100, false, false⟩],
      [⟨10, 1, "T", 0, 50, true⟩]⟩ 1 ⟨1, 1, "Y", 0, 100, false, false⟩
    rfl rfl

/-! ### Role-based access control (src/lib/security.ts). -/

/-- The UserRole enum of the schema. -/
inductive UserRole where
  | admin
  | teacher
  | student
  | parent
deriving Repr, DecidableEq

/-- The user shape the RBAC helpers consume: a user row with a role. -/
structure SecUser where
  id : Nat
  role : UserRole
deriving Repr, DecidableEq

/-- AllowedRoles: a single role or an array of roles. -/
inductive AllowedRoles where
  | single (r : UserRole)
  | list (rs : List UserRole)
deriving Repr, DecidableEq

/-- An HTTP response: status code and body. -/
structure HttpResponse where
  status : Nat
  body : String
deriving Repr, DecidableEq

/-- The inline role test both requireRole and hasRole compute:
Array.isArray(allowedRoles) ? allowedRoles.includes(user.role)
: user.role === allowedRoles. -/
def roleMatches (u : SecUser) (allowed : AllowedRoles) : Bool :=
  match allowed with
  | .list rs => rs.contains u.role
  | .single r => u.role == r

/-- hasRole: false for a null user, otherwise the role test. -/
def hasRole (user : Option SecUser) (allowed : AllowedRoles) : Bool :=
  match user with
  | none => false
  | some u => roleMatches u allowed

/-- requireRole: 401 response for a null user, 403 response when the role
test fails, null (authorized) otherwise. -/
def requireRole (user : Option SecUser) (allowed : AllowedRoles) :
    Option HttpResponse :=
  match user with
  | none => some ⟨401, "Unauthorized - User not found"⟩
  | some u =>
    if !(roleMatches u allowed) then
      some ⟨403, "Forbidden - Insufficient permissions"⟩
    else none

lemma requireRole_some (u : SecUser) (allowed : AllowedRoles) :
    requireRole (some u) allowed =
      (if !(roleMatches u allowed) then
        some ⟨403, "Forbidden - Insufficient permissions"⟩
      else none) := rfl

/-- withRoleAuth: resolve the Clerk session (clerkId), load the user row
from the user directory, run requireRole, and only then invoke the protected
handler — the handler is what queries resources, modelled as a function of
the store. -/
def withRoleAuth (handler : Store → HttpResponse) (allowed : AllowedRoles)
    (clerkId : Option Nat) (userDb : Nat → Option SecUser)
    (store : Store) : HttpResponse :=
  match clerkId with
  | none => ⟨401, "Unauthorized - Not authenticated"⟩
  | some cid =>
    match userDb cid with
    | none => ⟨401, "Unauthorized - User not found in database"⟩
    | some u =>
      match requireRole (some u) allowed with
      | some resp => resp
      | none => handler store

/-- C8: role-based authorization executes before any resource access: no
resolvable actor → 401 (for every handler and store); ineligible role →
403 with the handler never invoked, so the response of an ineligible actor
is identical for any two stores and even any two handlers — resource
existence cannot leak. -/
theorem auth_before_resource :
    (∀ (handler : Store → HttpResponse) (allowed : AllowedRoles)
      (userDb : Nat → Option SecUser) (store : Store),
      (withRoleAuth handler allowed none userDb store).status = 401) ∧
    (∀ (handler : Store → HttpResponse) (allowed : AllowedRoles) (cid : Nat)
      (userDb : Nat → Option SecUser) (store : Store),
      userDb cid = none →
      (withRoleAuth handler allowed (some cid) userDb store).status = 401) ∧
    (∀ (handler : Store → HttpResponse) (allowed : AllowedRoles) (cid : Nat)
      (userDb : Nat → Option SecUser) (store : Store) (u : SecUser),
      userDb cid = some u → hasRole (some u) allowed = false →
      withRoleAuth handler allowed (some cid) userDb store =
        ⟨403, "Forbidden - Insufficient permissions"⟩) ∧
    (∀ (handler1 handler2 : Store → HttpResponse) (allowed : AllowedRoles)
      (cid : Nat) (userDb : Nat → Option SecUser) (store1 store2 : Store)
      (u : SecUser),
      userDb cid = some u → hasRole (some u) allowed = false →
      withRoleAuth handler1 allowed (some cid) userDb store1 =
        withRoleAuth handler2 allowed (some cid) userDb store2) := by
  have hreq : ∀ (u : SecUser) (allowed : AllowedRoles),
      hasRole (some u) allowed = false →
      requireRole (some u) allowed =
        some ⟨403, "Forbidden - Insufficient permissions"⟩ := by
    intro u allowed hr
    rw [requireRole_some, show roleMatches u allowed = false from hr]
    rfl
  refine ⟨?_, ?_, ?_, ?_⟩
  · intro handler allowed userDb store
    rfl
  · intro handler allowed cid userDb store hdb
    unfold withRoleAuth
    simp only [hdb]
  · intro handler allowed cid userDb store u hdb hr
    unfold withRoleAuth
    simp only [hdb, hreq u allowed hr]
  · intro handler1 handler2 allowed cid userDb store1 store2 u hdb hr
    unfold withRoleAuth
    simp only [hdb, hreq u allowed hr]

/-- Closed instance of C8: a teacher hitting an admin-only operation gets
403 without the handler running. -/
theorem auth_before_resource_witness :
    withRoleAuth (fun _ => ⟨200, "ok"⟩) (.list [UserRole.admin]) (some 7)
        (fun _ => some ⟨1, UserRole.teacher⟩) ⟨[], []⟩ =
      ⟨403, "Forbidden - Insufficient permissions"⟩ :=
  auth_before_resource.2.2.1 (fun _ => ⟨200, "ok"⟩) (.list [UserRole.admin])
    7 (fun _ => some ⟨1, UserRole.teacher⟩) ⟨[], []⟩ ⟨1, UserRole.teacher⟩
    rfl rfl

/-! ### Updates without dates skip validation (claim C9). -/

lemma assert_term_unlocked {st : Store} {id : Nat} {t : Term}
    (hfind : findTerm st id = some t) (hl : t.isLocked = false) :
    assertTermNotLocked st id = .ok () := by
  unfold assertTermNotLocked
  rw [hfind]
  simp only [hl, Bool.false_eq_true, if_false]

/-- C9: an UPDATE of an AcademicYear or Term whose payload contains neither
startDate nor endDate performs no date-range, overlap, or containment
validation: once the lock and existence checks pass it succeeds for every
stored state, even one whose stored ranges would fail those validators. -/
theorem update_without_dates_skips_validation :
    (∀ (st : Store) (d : YearUpdate) (y : AcademicYear),
      d.startDate = none → d.endDate = none →
      findYear st d.id = some y → y.isLocked = false →
      ∃ s2, putAcademicYear st d = .ok s2) ∧
    (∀ (st : Store) (d : TermUpdate) (t : Term) (p : AcademicYear),
      d.startDate = none → d.endDate = none →
      findTerm st d.id = some t → t.isLocked = false →
      findYear st t.academicYearId = some p → p.isLocked = false →
      ∃ s2, putTerm st d = .ok s2) := by
  constructor
  · intro st d y hs he hfind hl
    unfold putAcademicYear
    rw [assert_year_unlocked hfind hl, hfind]
    simp only [hs, he, Option.isSome_none, Bool.or_self, Bool.false_eq_true,
      if_false]
    exact ⟨_, rfl⟩
  · intro st d t p hs he hfind hl hfindp hpl
    unfold putTerm
    rw [assert_term_unlocked hfind hl]
    simp only [hfind]
    rw [assert_year_unlocked hfindp hpl]
    simp only [hs, he, Option.isSome_none, Bool.or_self, Bool.false_eq_true,
      if_false]
    exact ⟨_, rfl⟩

/-- Closed instance of C9: renaming a year succeeds although its stored
range overlaps a sibling. -/
theorem update_without_dates_skips_validation_witness :
    ∃ s2, putAcademicYear ⟨[⟨1, 1, "A", 0, 100, false, false⟩,
        ⟨2, 1, "B", 50, 150, false, false⟩], []⟩
      ⟨1, some "renamed", none, none, none, none⟩ = .ok s2 :=
  update_without_dates_skips_validation.1
    ⟨[⟨1, 1, "A", 0, 100, false, false⟩,
      ⟨2, 1, "B", 50, 150, false, false⟩], []⟩
    ⟨1, some "renamed", none, none, none, none⟩
    ⟨1, 1, "A", 0, 100, false, false⟩ rfl rfl rfl rfl

/-! ### requireRole and hasRole agree (claim C10). -/

/-- C10: requireRole(user, allowedRoles) returns null exactly when
hasRole(user, allowedRoles) is true, for every user (including null) and
every allowed-roles argument (single role or list); when it is not null,
the status is 401 exactly when the user is null and 403 otherwise. -/
theorem requireRole_iff_hasRole :
    ∀ (user : Option SecUser) (allowed : AllowedRoles),
      (requireRole user allowed = none ↔ hasRole user allowed = true) ∧
      (∀ resp : HttpResponse, requireRole user allowed = some resp →
        ((user = none → resp.status = 401) ∧
         (user ≠ none → resp.status = 403))) := by
  intro user allowed
  cases user with
  | none =>
    refine ⟨?_, ?_⟩
    · constructor
      · intro h
        exact Option.noConfusion h
      · intro h
        exact Bool.noConfusion h
    · intro resp h
      refine ⟨fun _ => ?_, fun hne => absurd rfl hne⟩
      rw [← Option.some.inj h]
  | some u =>
    cases hr : roleMatches u allowed with
    | true =>
      refine ⟨?_, ?_⟩
      · constructor
        · intro h
          show roleMatches u allowed = true
          exact hr
        · intro h
          rw [requireRole_some, hr]
          rfl
      · intro resp h
        rw [requireRole_some, hr] at h
        exact Option.noConfusion h
    | false =>
      refine ⟨?_, ?_⟩
      · constructor
        · intro h
          rw [requireRole_some, hr] at h
          exact Option.noConfusion h
        · intro h
          have : roleMatches u allowed = true := h
          rw [hr] at this
          exact Bool.noConfusion this
      · intro resp h
        rw [requireRole_some, hr] at h
        refine ⟨fun hn => Option.noConfusion hn, fun _ => ?_⟩
        rw [← Option.some.inj h]

/-- Closed instance of C10: a teacher against the admin-only role list is
denied with 403, matching hasRole = false. -/
theorem requireRole_iff_hasRole_witness :
    (requireRole (some ⟨1, UserRole.teacher⟩) (.list [UserRole.admin]) =
        none ↔
      hasRole (some ⟨1, UserRole.teacher⟩) (.list [UserRole.admin]) =
        true) ∧
    ((some ⟨1, UserRole.teacher⟩ : Option SecUser) ≠ none →
      (⟨403, "Forbidden - Insufficient permissions"⟩ : HttpResponse).status =
        403) :=
  ⟨(requireRole_iff_hasRole (some ⟨1, UserRole.teacher⟩)
      (.list [UserRole.admin])).1,
   ((requireRole_iff_hasRole (some ⟨1, UserRole.teacher⟩)
        (.list [UserRole.admin])).2
      ⟨403, "Forbidden - Insufficient permissions"⟩ rfl).2⟩

end SchoolCore
